import Mathlib

set_option maxRecDepth 8000

/-!
A shallow embedding of the CMS protocol core (file `protocol/protocol.go` of
the ietf-cms repository).  Byte strings are `List Nat` (one entry per octet;
every read that corresponds to a Go `byte` read reduces modulo 256).  Go
slices are lists, `*big.Int` is `Int`, and fallible Go functions return
`Except String`.  The ASN.1 helpers model the parts of the Go standard
library `encoding/asn1` that the source calls: `Unmarshal` into `RawValue`,
into `ObjectIdentifier` and into the `IssuerAndSerialNumber` struct, and
`Marshal` of the values the source marshals.  External cryptographic
collaborators (hash functions, availability of a hash in the binary, and the
signing capability) are parameters, and public keys are identified with
their PKIX-marshaled DER bytes.
-/

/-- Object identifiers, as in Go `asn1.ObjectIdentifier` (a slice of ints). -/
abbrev OID := List Nat

deriving instance DecidableEq for Except

/-- Go `crypto.Hash` restricted to the values reachable from the fixed digest
registry (the Go zero value 0, meaning unknown, is modeled by `Option`). -/
inductive CryptoHash where
  | MD5
  | SHA1
  | SHA256
  | SHA384
  | SHA512
deriving DecidableEq

/-- Go `x509.SignatureAlgorithm` restricted to the values that occur in the
fixed registries, plus the zero value and one unregistered algorithm. -/
inductive SignatureAlgorithm where
  | unknownSignatureAlgorithm
  | MD5WithRSA
  | SHA1WithRSA
  | SHA256WithRSA
  | SHA384WithRSA
  | SHA512WithRSA
  | DSAWithSHA1
  | ECDSAWithSHA1
  | ECDSAWithSHA256
  | ECDSAWithSHA384
  | ECDSAWithSHA512
deriving DecidableEq

/-- One decoded TLV, mirroring Go `encoding/asn1.RawValue`:
`bytes` holds the content octets, `fullBytes` the whole TLV. -/
structure RawValue where
  class_ : Nat
  tag : Nat
  isCompound : Bool
  bytes : List Nat
  fullBytes : List Nat
deriving DecidableEq

/-- Go `pkix.AlgorithmIdentifier`; the source only ever reads and writes the
`Algorithm` OID field, so the optional parameters are omitted. -/
structure AlgorithmIdentifier where
  algorithm : OID
deriving DecidableEq

/-- Go `pkix.Extension` as used by `FindCertificate` (the `Critical` flag is
never read by the source). -/
structure Extension where
  id : OID
  value : List Nat
deriving DecidableEq

/-- The fields of Go `x509.Certificate` that the source reads.  `publicKey`
holds the PKIX-marshaled DER of the certificate public key (the source only
ever compares marshaled keys for byte equality). -/
structure Certificate where
  raw : List Nat
  rawIssuer : List Nat
  serialNumber : Int
  extensions : List Extension
  publicKey : List Nat
  signatureAlgorithm : SignatureAlgorithm
deriving DecidableEq

/-- Source type `Attribute` (protocol.go): an attribute type OID together
with the raw SET OF ANY value. -/
structure Attribute where
  type : OID
  rawValue : RawValue
deriving DecidableEq

/-- Source type `Attributes` (protocol.go).  A Go nil slice and an empty
slice behave identically in every source function that consumes
`Attributes`, so both are modeled by `[]`. -/
abbrev Attributes := List Attribute

/-- Type `AnySet` of this repository (its file is not under `src/`); see the
spec-modelled codec below. -/
structure AnySet where
  elements : List RawValue
deriving DecidableEq

/-- Source type `IssuerAndSerialNumber` (protocol.go). -/
structure IssuerAndSerialNumber where
  issuer : RawValue
  serialNumber : Int
deriving DecidableEq

/-- Source type `EncapsulatedContentInfo` (protocol.go).  `eContent` models
the `Bytes` field of the optional raw value: `none` is the Go nil slice of
an absent field, `some bs` a present field with content octets `bs`.  The
class and tag of the outer raw value are never read by the source logic. -/
structure EncapsulatedContentInfo where
  eContentType : OID
  eContent : Option (List Nat)
deriving DecidableEq

/-- Source type `SignerInfo` (protocol.go). -/
structure SignerInfo where
  version : Int
  sid : RawValue
  digestAlgorithm : AlgorithmIdentifier
  signedAttrs : Attributes
  signatureAlgorithm : AlgorithmIdentifier
  signature : List Nat
  unsignedAttrs : Attributes
deriving DecidableEq

/-- Source type `SignedData` (protocol.go). -/
structure SignedData where
  version : Int
  digestAlgorithms : List AlgorithmIdentifier
  encapContentInfo : EncapsulatedContentInfo
  certificates : List RawValue
  crls : List RawValue
  signerInfos : List SignerInfo
deriving DecidableEq

/-- A Go `crypto.Signer`: its marshaled public key and its signing function
(digest and hash in, signature bytes or an error out). -/
structure Signer where
  pub : List Nat
  sign : List Nat → CryptoHash → Except String (List Nat)

/-- The value kinds the source passes to `asn1.Marshal` inside
`NewAttribute`: a byte slice (the message digest) or an OID. -/
inductive ASN1Value where
  | bytes (b : List Nat)
  | oid (o : OID)
deriving DecidableEq

/-! Content type, attribute, algorithm and extension OIDs (protocol.go). -/

def oidData : OID := [1, 2, 840, 113549, 1, 7, 1]

def oidSignedData : OID := [1, 2, 840, 113549, 1, 7, 2]

def oidTSTInfo : OID := [1, 2, 840, 113549, 1, 9, 16, 1, 4]

def oidAttributeContentType : OID := [1, 2, 840, 113549, 1, 9, 3]

def oidAttributeMessageDigest : OID := [1, 2, 840, 113549, 1, 9, 4]

def oidAttributeSigningTime : OID := [1, 2, 840, 113549, 1, 9, 5]

def oidSignatureAlgorithmRSA : OID := [1, 2, 840, 113549, 1, 1, 1]

def oidSignatureAlgorithmECDSA : OID := [1, 2, 840, 10045, 2, 1]

def oidDigestAlgorithmSHA1 : OID := [1, 3, 14, 3, 2, 26]

def oidDigestAlgorithmMD5 : OID := [1, 2, 840, 113549, 2, 5]

def oidDigestAlgorithmSHA256 : OID := [2, 16, 840, 1, 101, 3, 4, 2, 1]

def oidDigestAlgorithmSHA384 : OID := [2, 16, 840, 1, 101, 3, 4, 2, 2]

def oidDigestAlgorithmSHA512 : OID := [2, 16, 840, 1, 101, 3, 4, 2, 3]

def oidSubjectKeyIdentifier : OID := [2, 5, 29, 14]

/-! The fixed, read-only algorithm registries (protocol.go).  The Go maps are
keyed by the dotted string of the OID; the dotted string is injective on
OIDs, so keying directly by the OID is observably identical. -/

/-- Map `digestAlgorithmToHash`; a missing key yields the Go zero value
`crypto.Hash(0)`, modeled as `none`. -/
def digestAlgorithmToHash (oid : OID) : Option CryptoHash :=
  if oid = oidDigestAlgorithmSHA1 then some .SHA1
  else if oid = oidDigestAlgorithmMD5 then some .MD5
  else if oid = oidDigestAlgorithmSHA256 then some .SHA256
  else if oid = oidDigestAlgorithmSHA384 then some .SHA384
  else if oid = oidDigestAlgorithmSHA512 then some .SHA512
  else none

/-- Map `signatureAlgorithmToDigestAlgorithm`; a missing key yields the Go
zero value nil OID, modeled as `none`. -/
def signatureAlgorithmToDigestAlgorithm : SignatureAlgorithm → Option OID
  | .SHA1WithRSA => some oidDigestAlgorithmSHA1
  | .MD5WithRSA => some oidDigestAlgorithmMD5
  | .SHA256WithRSA => some oidDigestAlgorithmSHA256
  | .SHA384WithRSA => some oidDigestAlgorithmSHA384
  | .SHA512WithRSA => some oidDigestAlgorithmSHA512
  | .ECDSAWithSHA1 => some oidDigestAlgorithmSHA1
  | .ECDSAWithSHA256 => some oidDigestAlgorithmSHA256
  | .ECDSAWithSHA384 => some oidDigestAlgorithmSHA384
  | .ECDSAWithSHA512 => some oidDigestAlgorithmSHA512
  | _ => none

/-- Map `signatureAlgorithmToSignatureAlgorithm`; a missing key yields the Go
zero value nil OID, modeled as `none`. -/
def signatureAlgorithmToSignatureAlgorithm : SignatureAlgorithm → Option OID
  | .SHA1WithRSA => some oidSignatureAlgorithmRSA
  | .MD5WithRSA => some oidSignatureAlgorithmRSA
  | .SHA256WithRSA => some oidSignatureAlgorithmRSA
  | .SHA384WithRSA => some oidSignatureAlgorithmRSA
  | .SHA512WithRSA => some oidSignatureAlgorithmRSA
  | .ECDSAWithSHA1 => some oidSignatureAlgorithmECDSA
  | .ECDSAWithSHA256 => some oidSignatureAlgorithmECDSA
  | .ECDSAWithSHA384 => some oidSignatureAlgorithmECDSA
  | .ECDSAWithSHA512 => some oidSignatureAlgorithmECDSA
  | _ => none

/-- The two-level map `signatureAlgorithms` (signature OID, then digest OID);
note the ECDSA row has no MD5 entry.  A missing key on either level yields
the Go zero value, modeled as `none`. -/
def signatureAlgorithms (sigOID digestOID : OID) : Option SignatureAlgorithm :=
  if sigOID = oidSignatureAlgorithmRSA then
    if digestOID = oidDigestAlgorithmSHA1 then some .SHA1WithRSA
    else if digestOID = oidDigestAlgorithmMD5 then some .MD5WithRSA
    else if digestOID = oidDigestAlgorithmSHA256 then some .SHA256WithRSA
    else if digestOID = oidDigestAlgorithmSHA384 then some .SHA384WithRSA
    else if digestOID = oidDigestAlgorithmSHA512 then some .SHA512WithRSA
    else none
  else if sigOID = oidSignatureAlgorithmECDSA then
    if digestOID = oidDigestAlgorithmSHA1 then some .ECDSAWithSHA1
    else if digestOID = oidDigestAlgorithmSHA256 then some .ECDSAWithSHA256
    else if digestOID = oidDigestAlgorithmSHA384 then some .ECDSAWithSHA384
    else if digestOID = oidDigestAlgorithmSHA512 then some .ECDSAWithSHA512
    else none
  else none

/-! Minimal big-endian base 256 digits of a natural number, used by the DER
length encoder and the two-complement integer encoder.  The recursion is
structural on a fuel argument so that it reduces inside the kernel; the fuel
is always instantiated with the number itself, which suffices. -/

def natBEAux : Nat → Nat → List Nat
  | 0, n => [n % 256]
  | fuel + 1, n => if n < 256 then [n] else natBEAux fuel (n / 256) ++ [n % 256]

/-- Minimal big-endian base 256 representation (`[0]` for zero). -/
def natBE (n : Nat) : List Nat := natBEAux n n

/-- The big-endian byte value of a list, reading each entry modulo 256. -/
def valBE (bs : List Nat) : Nat := bs.foldl (fun a b => a * 256 + b % 256) 0

/-- DER length octets: short form below 128, otherwise long form with the
minimal big-endian length bytes (Go `appendLength`). -/
def encodeLen (n : Nat) : List Nat :=
  if n < 128 then [n] else (128 + (natBE n).length) :: natBE n

/-- Base 128 big-endian digits, fuel-structural like `natBEAux`. -/
def base128Aux : Nat → Nat → List Nat
  | 0, n => [n % 128]
  | fuel + 1, n => if n < 128 then [n] else base128Aux fuel (n / 128) ++ [n % 128]

/-- Go `appendBase128Int`: base 128 big-endian with the continuation bit set
on every octet but the last. -/
def base128Enc (n : Nat) : List Nat :=
  let ds := base128Aux n n
  ds.dropLast.map (fun d => d + 128) ++ ds.drop (ds.length - 1)

/-- The identifier octets of a TLV header (low tag numbers in one octet, high
tag numbers in base 128 as in Go `appendTagAndLength`). -/
def tagBytes (cls : Nat) (cmp : Bool) (tag : Nat) : List Nat :=
  let lead := cls * 64 + (if cmp then 32 else 0)
  if tag < 31 then [lead + tag] else (lead + 31) :: base128Enc tag

/-- A full DER TLV: identifier octets, length octets, content octets. -/
def encodeTLV (cls : Nat) (cmp : Bool) (tag : Nat) (content : List Nat) : List Nat :=
  tagBytes cls cmp tag ++ encodeLen content.length ++ content

/-- Go `encoding/asn1.Marshal` applied to a `RawValue`: a nonempty
`FullBytes` is emitted verbatim, otherwise the value is re-encoded from its
class, tag, compound flag and content octets. -/
def marshalRawValue (rv : RawValue) : List Nat :=
  if rv.fullBytes.isEmpty then encodeTLV rv.class_ rv.isCompound rv.tag rv.bytes
  else rv.fullBytes

/-- Go `encoding/asn1.parseBase128Int`: at most five base 128 octets, the
first octet may not be 0x80, and the result may not exceed `MaxInt32`.
Arguments: remaining input, accumulator, octets consumed so far. -/
def parseBase128 : List Nat → Nat → Nat → Except String (Nat × List Nat)
  | [], _, _ => .error ("asn1: syntax error: truncated base 128 integer")
  | b :: r, acc, shifted =>
    if shifted = 5 then .error ("asn1: structure error: base 128 integer too large")
    else
      let b' := b % 256
      if shifted = 0 ∧ b' = 128 then
        .error ("asn1: structure error: integer is not minimally encoded")
      else
        let acc' := acc * 128 + b' % 128
        if b' < 128 then
          if 2147483647 < acc' then
            .error ("asn1: structure error: base 128 integer too large")
          else .ok (acc', r)
        else parseBase128 r acc' (shifted + 1)

/-- The long form branch of Go `parseTagAndLength`: `count` length octets are
folded big-endian into `acc`; the accumulator must stay below 2^23 before
each shift, must never be zero after an octet, and the final value must not
fit the short form. -/
def parseLongLen : Nat → Nat → List Nat → Except String (Nat × List Nat)
  | 0, acc, r =>
    if acc < 128 then .error ("asn1: structure error: non-minimal length")
    else .ok (acc, r)
  | _ + 1, _, [] => .error ("asn1: syntax error: truncated tag or length")
  | count + 1, acc, b :: r =>
    if 8388608 ≤ acc then .error ("asn1: structure error: length too large")
    else
      let acc' := acc * 256 + b % 256
      if acc' = 0 then
        .error ("asn1: structure error: superfluous leading zeros in length")
      else parseLongLen count acc' r

/-- The length octets part of Go `parseTagAndLength`. -/
def parseLen : List Nat → Except String (Nat × List Nat)
  | [] => .error ("asn1: syntax error: truncated tag or length")
  | b :: r =>
    let b' := b % 256
    if b' < 128 then .ok (b', r)
    else
      let numBytes := b' % 128
      if numBytes = 0 then .error ("asn1: syntax error: indefinite length found (not DER)")
      else parseLongLen numBytes 0 r

/-- Go `asn1.Unmarshal` of one `RawValue`: parse the identifier and length
octets, check the length against the remaining input, and slice out the
content and full TLV octets.  Returns the raw value and the unconsumed
rest. -/
def unmarshalRaw (input : List Nat) : Except String (RawValue × List Nat) :=
  match input with
  | [] => .error ("asn1: syntax error: sequence truncated")
  | b :: r =>
    let b' := b % 256
    let cls := b' / 64
    let cmp := b' / 32 % 2 = 1
    let tag0 := b' % 32
    let tagged : Except String (Nat × List Nat) :=
      if tag0 = 31 then
        match parseBase128 r 0 0 with
        | .error e => .error e
        | .ok (t, r1) =>
          if t < 31 then .error ("asn1: syntax error: non-minimal tag")
          else .ok (t, r1)
      else .ok (tag0, r)
    match tagged with
    | .error e => .error e
    | .ok (tag, r1) =>
      match parseLen r1 with
      | .error e => .error e
      | .ok (len, r2) =>
        if r2.length < len then .error ("asn1: syntax error: data truncated")
        else
          let rest := r2.drop len
          let consumed := input.length - rest.length
          .ok ({ class_ := cls, tag := tag, isCompound := cmp,
                 bytes := r2.take len, fullBytes := input.take consumed }, rest)

/-- The dotted decimal string of an OID (Go `ObjectIdentifier.String`). -/
def oidDotString (oid : OID) : String :=
  String.intercalate (".") (oid.map (fun n => toString n))

/-- The component loop of Go `parseObjectIdentifier`, fuel-structural; the
fuel is instantiated with the input length, which always suffices because
`parseBase128` consumes at least one octet. -/
def parseOIDLoop : Nat → List Nat → List Nat → Except String (List Nat)
  | _, [], acc => .ok acc
  | 0, _ :: _, _ => .error ("internal: fuel exhausted")
  | fuel + 1, bs@(_ :: _), acc =>
    match parseBase128 bs 0 0 with
    | .error e => .error e
    | .ok (v, rest) => parseOIDLoop fuel rest (acc ++ [v])

/-- Go `encoding/asn1.parseObjectIdentifier`: the first base 128 component
encodes the first two arcs, the remaining components one arc each. -/
def parseObjectIdentifier (bytes : List Nat) : Except String OID :=
  match bytes with
  | [] => .error ("asn1: syntax error: zero length OBJECT IDENTIFIER")
  | _ :: _ =>
    match parseBase128 bytes 0 0 with
    | .error e => .error e
    | .ok (v, rest) =>
      let first2 := if v < 80 then [v / 40, v % 40] else [2, v - 80]
      match parseOIDLoop rest.length rest [] with
      | .error e => .error e
      | .ok comps => .ok (first2 ++ comps)

/-- Go `asn1.Unmarshal` into an `ObjectIdentifier`: a universal primitive
OBJECT IDENTIFIER TLV whose content parses as an OID. -/
def unmarshalOID (input : List Nat) : Except String (OID × List Nat) :=
  match unmarshalRaw input with
  | .error e => .error e
  | .ok (rv, rest) =>
    if rv.class_ ≠ 0 ∨ rv.tag ≠ 6 ∨ rv.isCompound then
      .error ("asn1: structure error: tags do not match")
    else
      match parseObjectIdentifier rv.bytes with
      | .error e => .error e
      | .ok oid => .ok (oid, rest)

/-- Go `encoding/asn1.makeObjectIdentifier` content octets: the validity
check on the first two arcs, then base 128 components. -/
def marshalOIDBody (oid : OID) : Except String (List Nat) :=
  match oid with
  | a :: b :: rest =>
    if 2 < a ∨ (a < 2 ∧ 40 ≤ b) then
      .error ("asn1: structure error: invalid object identifier")
    else .ok (base128Enc (a * 40 + b) ++ (rest.map base128Enc).flatten)
  | _ => .error ("asn1: structure error: invalid object identifier")

/-- Go `encoding/asn1.checkInteger` and `parseBigInt`: content octets of an
INTEGER, rejected when empty or not minimally encoded, decoded as a
big-endian two-complement value. -/
def parseBigInt (bytes : List Nat) : Except String Int :=
  match bytes with
  | [] => .error ("asn1: structure error: empty integer")
  | [b] =>
    .ok (if 128 ≤ b % 256 then (valBE [b] : Int) - 256 else (valBE [b] : Int))
  | b0 :: b1 :: _ =>
    if (b0 % 256 = 0 ∧ b1 % 256 < 128) ∨ (b0 % 256 = 255 ∧ 128 ≤ b1 % 256) then
      .error ("asn1: structure error: integer not minimally-encoded")
    else
      .ok (if 128 ≤ b0 % 256 then (valBE bytes : Int) - (256 : Int) ^ bytes.length
           else (valBE bytes : Int))

/-- Go `encoding/asn1.makeBigInt` wrapped in an INTEGER TLV: minimal
big-endian two-complement octets. -/
def marshalInt (i : Int) : List Nat :=
  if 0 ≤ i then
    let bs := natBE i.toNat
    let bs' := match bs with
      | b :: _ => if 128 ≤ b then 0 :: bs else bs
      | [] => bs
    encodeTLV 0 false 2 bs'
  else
    let m := (-(i + 1)).toNat
    let nb := (natBE m).map (fun b => 255 - b % 256)
    let nb' := match nb with
      | b :: _ => if b < 128 then 255 :: nb else nb
      | [] => nb
    encodeTLV 0 false 2 nb'

/-- Go `asn1.Unmarshal` into the source struct `IssuerAndSerialNumber`: a
universal constructed SEQUENCE holding one arbitrary TLV (the raw issuer)
followed by a universal primitive INTEGER (the serial number).  As in the Go
parser, octets trailing inside the sequence after the declared fields are
tolerated. -/
def unmarshalISN (input : List Nat) : Except String (IssuerAndSerialNumber × List Nat) :=
  match unmarshalRaw input with
  | .error e => .error e
  | .ok (outer, rest) =>
    if outer.class_ ≠ 0 ∨ outer.tag ≠ 16 ∨ ¬outer.isCompound then
      .error ("asn1: structure error: tags do not match")
    else
      match unmarshalRaw outer.bytes with
      | .error e => .error e
      | .ok (issuerRV, r1) =>
        match unmarshalRaw r1 with
        | .error e => .error e
        | .ok (intRV, _) =>
          if intRV.class_ ≠ 0 ∨ intRV.tag ≠ 2 ∨ intRV.isCompound then
            .error ("asn1: structure error: tags do not match")
          else
            match parseBigInt intRV.bytes with
            | .error e => .error e
            | .ok n => .ok ({ issuer := issuerRV, serialNumber := n }, rest)

/-- Modelled from the spec: the `NewAnySet` constructor of the ANY-set codec
of this repository, whose file is not under `src/` (spec section 4.2). -/
def NewAnySet (elts : List RawValue) : AnySet := ⟨elts⟩

/-- Modelled from the spec: `AnySet.Encode` of the ANY-set codec, whose file
is not under `src/`.  Per spec section 4.2, encoding re-wraps the element
sequence under a SET tag; each element contributes its marshaled octets. -/
def AnySet.encode (as : AnySet) : RawValue :=
  let body := (as.elements.map marshalRawValue).flatten
  { class_ := 0, tag := 17, isCompound := true, bytes := body,
    fullBytes := encodeTLV 0 true 17 body }

/-- The child walk of `DecodeAnySet`, fuel-structural; the fuel is
instantiated with the input length, which always suffices because
`unmarshalRaw` consumes at least one octet. -/
def decodeAnySetLoop : Nat → List Nat → List RawValue → Except String (List RawValue)
  | _, [], acc => .ok acc
  | 0, _ :: _, _ => .error ("internal: fuel exhausted")
  | fuel + 1, der@(_ :: _), acc =>
    match unmarshalRaw der with
    | .error e => .error e
    | .ok (rv, rest) => decodeAnySetLoop fuel rest (acc ++ [rv])

/-- Modelled from the spec: `DecodeAnySet` of the ANY-set codec, whose file
is not under `src/`.  Per spec section 4.2, it walks the immediate children
of the set as TLV primitives without interpreting their contents, yielding
the ordered element list, and fails on any malformed child TLV. -/
def DecodeAnySet (rv : RawValue) : Except String AnySet :=
  match decodeAnySetLoop rv.bytes.length rv.bytes [] with
  | .error e => .error e
  | .ok elts => .ok ⟨elts⟩

/-- Source method `Attribute.Value` (protocol.go): decode the raw attribute
value as a SET OF ANY. -/
def Attribute.Value (a : Attribute) : Except String AnySet :=
  DecodeAnySet a.rawValue

/-- Source values marshaled by `NewAttribute` via `asn1.Marshal`: a byte
slice becomes a primitive OCTET STRING, an OID an OBJECT IDENTIFIER. -/
def asn1MarshalValue : ASN1Value → Except String (List Nat)
  | .bytes b => .ok (encodeTLV 0 false 4 b)
  | .oid o =>
    match marshalOIDBody o with
    | .error e => .error e
    | .ok body => .ok (encodeTLV 0 false 6 body)

/-- Source function `NewAttribute` (protocol.go): marshal the value,
re-parse it as a raw TLV, and wrap it as a one-element ANY set. -/
def NewAttribute (typ : OID) (val : ASN1Value) : Except String Attribute :=
  match asn1MarshalValue val with
  | .error e => .error e
  | .ok der =>
    match unmarshalRaw der with
    | .error e => .error e
    | .ok (rv, _) => .ok { type := typ, rawValue := (NewAnySet [rv]).encode }

/-- The element-wise marshaling of an `Attributes` slice performed inside
`asn1.Marshal`: each `Attribute` struct becomes a universal constructed
SEQUENCE holding its type OID and its raw value octets. -/
def marshalAttribute (a : Attribute) : Except String (List Nat) :=
  match marshalOIDBody a.type with
  | .error e => .error e
  | .ok oidBody => .ok (encodeTLV 0 true 16 (encodeTLV 0 false 6 oidBody ++ marshalRawValue a.rawValue))

/-- Marshal a list of attributes in order, stopping at the first error. -/
def marshalAttrList : List Attribute → Except String (List (List Nat))
  | [] => .ok []
  | a :: rest =>
    match marshalAttribute a with
    | .error e => .error e
    | .ok der =>
      match marshalAttrList rest with
      | .error e => .error e
      | .ok ders => .ok (der :: ders)

/-- Source method `Attributes.MarshaledForSigning` (protocol.go): marshal an
anonymous struct holding the attributes under a `set` tag (a SEQUENCE whose
content is a universal SET OF the attributes, in slice order — the Go
marshaler does not sort set elements), then unwrap the outer SEQUENCE and
return its content octets, which are the full SET TLV. -/
def Attributes.MarshaledForSigning (attrs : Attributes) : Except String (List Nat) :=
  match marshalAttrList attrs with
  | .error e => .error e
  | .ok ders =>
    let seq := encodeTLV 0 true 16 (encodeTLV 0 true 17 ders.flatten)
    match unmarshalRaw seq with
    | .error e => .error e
    | .ok (raw, _) => .ok raw.bytes

/-- The accumulation loop of `Attributes.GetValues` (protocol.go): collect
the decoded ANY set of every attribute whose type equals the wanted OID. -/
def getValuesLoop (oid : OID) : List Attribute → List AnySet → Except String (List AnySet)
  | [], vals => .ok vals
  | a :: rest, vals =>
    if a.type = oid then
      match a.Value with
      | .error e => .error e
      | .ok v => getValuesLoop oid rest (vals ++ [v])
    else getValuesLoop oid rest vals

/-- Source method `Attributes.GetValues` (protocol.go).  The Go distinction
between a nil receiver (returning a nil slice) and an empty receiver
(returning an empty slice) is observably the length zero in both cases. -/
def Attributes.GetValues (attrs : Attributes) (oid : OID) : Except String (List AnySet) :=
  getValuesLoop oid attrs []

/-- Source method `Attributes.GetOnlyAttributeValueBytes` (protocol.go):
exactly one attribute with the OID must exist and it must carry exactly one
value. -/
def Attributes.GetOnlyAttributeValueBytes (attrs : Attributes) (oid : OID) :
    Except String RawValue :=
  match Attributes.GetValues attrs oid with
  | .error e => .error e
  | .ok vals =>
    match vals with
    | [v] =>
      match v.elements with
      | [e] => .ok e
      | es =>
        let n := es.length
        .error ("expected 1 attribute value found " ++ toString n)
    | vs =>
      let n := vs.length
      .error ("expected 1 attribute found " ++ toString n)

/-- Source method `SignerInfo.GetContentTypeAttribute` (protocol.go): the
single content-type signed attribute, decoded as an OID with no trailing
data. -/
def SignerInfo.GetContentTypeAttribute (si : SignerInfo) : Except String OID :=
  match Attributes.GetOnlyAttributeValueBytes si.signedAttrs oidAttributeContentType with
  | .error e => .error e
  | .ok rv =>
    match unmarshalOID rv.fullBytes with
    | .error e => .error e
    | .ok (ct, rest) =>
      if rest.length ≠ 0 then .error ("unexpected trailing data") else .ok ct

/-- Source function `NewEncapsulatedContentInfo` (protocol.go): wrap the
content in a primitive OCTET STRING and store those octets as the content of
the explicit `[0]` field. -/
def NewEncapsulatedContentInfo (content : List Nat) (contentType : OID) :
    EncapsulatedContentInfo :=
  { eContentType := contentType, eContent := some (encodeTLV 0 false 4 content) }

/-- Source function `NewDataEncapsulatedContentInfo` (protocol.go). -/
def NewDataEncapsulatedContentInfo (data : List Nat) : EncapsulatedContentInfo :=
  NewEncapsulatedContentInfo data oidData

/-- The segment loop of `EContentValue` (protocol.go) over a constructed
OCTET STRING: each child must be a universal primitive OCTET STRING and
contributes its content octets in order.  Fuel-structural; the fuel is
instantiated with the input length, which always suffices because
`unmarshalRaw` consumes at least one octet. -/
def econtentLoop : Nat → List Nat → List Nat → Except String (List Nat)
  | _, [], value => .ok value
  | 0, _ :: _, _ => .error ("internal: fuel exhausted")
  | fuel + 1, rest@(_ :: _), value =>
    match unmarshalRaw rest with
    | .error e => .error e
    | .ok (octets, rest') =>
      if octets.class_ ≠ 0 ∨ octets.tag ≠ 4 ∨ octets.isCompound then
        let c := octets.class_
        let t := octets.tag
        .error ("bad data content (class: " ++ toString c ++ " tag: " ++ toString t ++ ")")
      else econtentLoop fuel rest' (value ++ octets.bytes)

/-- Source method `EncapsulatedContentInfo.EContentValue` (protocol.go).
The result models the Go byte slice: `none` is the nil slice (absent
optional field, or a constructed OCTET STRING to which no octet was ever
appended), `some` a non-nil slice. -/
def EncapsulatedContentInfo.EContentValue (eci : EncapsulatedContentInfo) :
    Except String (Option (List Nat)) :=
  match eci.eContent with
  | none => .ok none
  | some ecBytes =>
    match unmarshalRaw ecBytes with
    | .error e => .error e
    | .ok (octets, rest) =>
      if rest.length ≠ 0 then .error ("unexpected trailing data")
      else if octets.class_ ≠ 0 ∨ octets.tag ≠ 4 then
        let c := octets.class_
        let t := octets.tag
        .error ("bad data content (class: " ++ toString c ++ " tag: " ++ toString t ++ ")")
      else if octets.isCompound then
        match econtentLoop octets.bytes.length octets.bytes [] with
        | .error e => .error e
        | .ok value => .ok (if value.isEmpty then none else some value)
      else .ok (some octets.bytes)

/-- Source method `EncapsulatedContentInfo.IsTypeData` (protocol.go). -/
def EncapsulatedContentInfo.IsTypeData (eci : EncapsulatedContentInfo) : Bool :=
  eci.eContentType = oidData

/-- Source method `SignerInfo.issuerAndSerialNumberSID` (protocol.go): the
SID must be a universal SEQUENCE and its full octets must unmarshal as an
`IssuerAndSerialNumber` with nothing trailing. -/
def SignerInfo.issuerAndSerialNumberSID (si : SignerInfo) :
    Except String IssuerAndSerialNumber :=
  if si.sid.class_ ≠ 0 ∨ si.sid.tag ≠ 16 then
    .error ("cms/protocol: wrong choice or any type")
  else
    match unmarshalISN si.sid.fullBytes with
    | .error e => .error e
    | .ok (isn, rest) =>
      if rest.length ≠ 0 then .error ("unexpected trailing data") else .ok isn

/-- Source method `SignerInfo.subjectKeyIdentifierSID` (protocol.go): the
SID must be context-specific tag 0; its content octets are the key
identifier. -/
def SignerInfo.subjectKeyIdentifierSID (si : SignerInfo) : Except String (List Nat) :=
  if si.sid.class_ ≠ 2 ∨ si.sid.tag ≠ 0 then
    .error ("cms/protocol: wrong choice or any type")
  else .ok si.sid.bytes

/-- Source method `SignerInfo.FindCertificate` (protocol.go): an empty
candidate list is an error before the version dispatch; version 1 matches on
raw issuer octets and serial number, version 3 on the subject key identifier
extension value, any other version is an error; the first match in candidate
order wins. -/
def SignerInfo.FindCertificate (si : SignerInfo) (certs : List Certificate) :
    Except String Certificate :=
  if certs.length = 0 then .error ("no certificates")
  else if si.version = 1 then
    match si.issuerAndSerialNumberSID with
    | .error e => .error e
    | .ok isn =>
      match certs.find? (fun cert =>
          cert.rawIssuer == isn.issuer.fullBytes && isn.serialNumber == cert.serialNumber) with
      | some cert => .ok cert
      | none => .error ("no matching certificate")
  else if si.version = 3 then
    match si.subjectKeyIdentifierSID with
    | .error e => .error e
    | .ok ski =>
      match certs.find? (fun cert =>
          cert.extensions.any (fun ext => oidSubjectKeyIdentifier == ext.id && ski == ext.value)) with
      | some cert => .ok cert
      | none => .error ("no matching certificate")
  else .error ("unknown SignerInfo version")

/-- Source method `SignerInfo.Hash` (protocol.go): look the digest OID up in
the fixed registry (the zero map value means unknown) and require the hash
to be linked into the binary; availability is a parameter of the model. -/
def SignerInfo.Hash (available : CryptoHash → Bool) (si : SignerInfo) :
    Except String CryptoHash :=
  let algo := si.digestAlgorithm.algorithm
  match digestAlgorithmToHash algo with
  | none => .error ("unknown digest algorithm: " ++ oidDotString algo)
  | some hash =>
    if ¬available hash then .error ("Hash not avaialbe: " ++ oidDotString algo)
    else .ok hash

/-- Source method `SignerInfo.X509SignatureAlgorithm` (protocol.go): a pure
two-level registry lookup with no error return; a missing entry yields the
Go zero value `x509.UnknownSignatureAlgorithm`. -/
def SignerInfo.X509SignatureAlgorithm (si : SignerInfo) : SignatureAlgorithm :=
  (signatureAlgorithms si.signatureAlgorithm.algorithm
    si.digestAlgorithm.algorithm).getD .unknownSignatureAlgorithm

/-- Source function `NewIssuerAndSerialNumber` (protocol.go): re-parse the
raw issuer of the certificate, marshal the issuer-and-serial sequence, and
re-parse it as one raw TLV. -/
def NewIssuerAndSerialNumber (cert : Certificate) : Except String RawValue :=
  match unmarshalRaw cert.rawIssuer with
  | .error e => .error e
  | .ok (issuer, _) =>
    let der := encodeTLV 0 true 16 (marshalRawValue issuer ++ marshalInt cert.serialNumber)
    match unmarshalRaw der with
    | .error e => .error e
    | .ok (rv, _) => .ok rv

/-- Source function `NewSignedData` (protocol.go): version 1, or 3 when the
encapsulated content type is not id-data; the Go function never returns a
non-nil error. -/
def NewSignedData (eci : EncapsulatedContentInfo) : Except String SignedData :=
  let version : Int := if ¬eci.IsTypeData then 3 else 1
  .ok { version := version, digestAlgorithms := [], encapContentInfo := eci,
        certificates := [], crls := [], signerInfos := [] }

/-- Source method `SignedData.addCertificate` (protocol.go).  Note the
duplicate check compares the content octets of each stored value with the
full raw TLV of the candidate.  Returns the Go error alongside the receiver
state after the call. -/
def SignedData.addCertificate (sd : SignedData) (cert : Certificate) :
    Except String Unit × SignedData :=
  if sd.certificates.any (fun existing => existing.bytes == cert.raw) then
    (.error ("certificate already added"), sd)
  else
    match unmarshalRaw cert.raw with
    | .error e => (.error e, sd)
    | .ok (rv, _) => (.ok (), { sd with certificates := sd.certificates ++ [rv] })

/-- Source method `SignedData.addDigestAlgorithm` (protocol.go): append the
algorithm identifier unless one with the same OID is present. -/
def SignedData.addDigestAlgorithm (sd : SignedData) (algo : AlgorithmIdentifier) :
    SignedData :=
  if sd.digestAlgorithms.any (fun existing => existing.algorithm == algo.algorithm) then sd
  else { sd with digestAlgorithms := sd.digestAlgorithms ++ [algo] }

/-- The certificate chain loop of `SignedData.AddSignerInfo` (protocol.go):
register every chain certificate, marshal its public key (modeled as the
stored key octets, always succeeding) and remember the last chain
certificate whose key equals the signer key. -/
def registerChain (pub : List Nat) (sd : SignedData) :
    List Certificate → Option Certificate → Except String (Option Certificate) × SignedData
  | [], found => (.ok found, sd)
  | c :: cs, found =>
    match sd.addCertificate c with
    | (.error e, sd') => (.error e, sd')
    | (.ok _, sd') =>
      let certPub := c.publicKey
      registerChain pub sd' cs (if pub = certPub then some c else found)

/-- Source method `SignedData.AddSignerInfo` (protocol.go), with the hash
computation, hash availability and the signing capability as parameters.
The pair holds the Go error and the receiver state after the call, so that
partial mutation on failure is observable. -/
def SignedData.AddSignerInfo (available : CryptoHash → Bool)
    (digest : CryptoHash → List Nat → List Nat) (sd : SignedData)
    (chain : List Certificate) (signer : Signer) : Except String Unit × SignedData :=
  let pub := signer.pub
  match registerChain pub sd chain none with
  | (.error e, sd') => (.error e, sd')
  | (.ok none, sd') => (.error ("No certificate matching signer public key"), sd')
  | (.ok (some cert), sd') =>
    match NewIssuerAndSerialNumber cert with
    | .error e => (.error e, sd')
    | .ok sid =>
      match signatureAlgorithmToDigestAlgorithm cert.signatureAlgorithm with
      | none => (.error ("unsupported digest algorithm"), sd')
      | some digestAlgorithm =>
        match signatureAlgorithmToSignatureAlgorithm cert.signatureAlgorithm with
        | none => (.error ("unsupported signature algorithm"), sd')
        | some signatureAlgorithm =>
          let si : SignerInfo :=
            { version := 1, sid := sid,
              digestAlgorithm := { algorithm := digestAlgorithm },
              signedAttrs := [],
              signatureAlgorithm := { algorithm := signatureAlgorithm },
              signature := [], unsignedAttrs := [] }
          match sd'.encapContentInfo.EContentValue with
          | .error e => (.error e, sd')
          | .ok none => (.error ("already detached"), sd')
          | .ok (some content) =>
            match SignerInfo.Hash available si with
            | .error e => (.error e, sd')
            | .ok hash =>
              let md := digest hash content
              match NewAttribute oidAttributeMessageDigest (.bytes md) with
              | .error e => (.error e, sd')
              | .ok mdAttr =>
                match NewAttribute oidAttributeContentType (.oid oidData) with
                | .error e => (.error e, sd')
                | .ok ctAttr =>
                  let si := { si with signedAttrs := si.signedAttrs ++ [mdAttr, ctAttr] }
                  match Attributes.MarshaledForSigning si.signedAttrs with
                  | .error e => (.error e, sd')
                  | .ok sm =>
                    let smd := digest hash sm
                    match signer.sign smd hash with
                    | .error e => (.error e, sd')
                    | .ok sig =>
                      let si := { si with signature := sig }
                      let sd'' := sd'.addDigestAlgorithm si.digestAlgorithm
                      (.ok (), { sd'' with signerInfos := sd''.signerInfos ++ [si] })

/-! Concrete fixtures used by the witness and counterexample theorems: a
well-formed four-octet certificate, a signer whose key matches it, a
stand-in digest function, and small `SignedData` values under
construction. -/

def certW : Certificate :=
  { raw := [48, 2, 5, 0], rawIssuer := [48, 0], serialNumber := 5,
    extensions := [], publicKey := [1, 2, 3], signatureAlgorithm := .SHA256WithRSA }

/-- A certificate with the same issuer as `certW` but another serial. -/
def certXW : Certificate := { certW with serialNumber := 7 }

def signerW : Signer := { pub := [1, 2, 3], sign := fun d _ => .ok d }

def availW : CryptoHash → Bool := fun _ => true

/-- A stand-in digest function for concrete runs (the real hash functions
are external collaborators). -/
def digestW : CryptoHash → List Nat → List Nat := fun _ bs => bs

def sdDataW : SignedData :=
  { version := 1, digestAlgorithms := [],
    encapContentInfo := NewDataEncapsulatedContentInfo [104, 105],
    certificates := [], crls := [], signerInfos := [] }

def sdTSTW : SignedData :=
  { version := 3, digestAlgorithms := [],
    encapContentInfo := NewEncapsulatedContentInfo [104, 105] oidTSTInfo,
    certificates := [], crls := [], signerInfos := [] }

def sdDetachedW : SignedData :=
  { version := 1, digestAlgorithms := [],
    encapContentInfo := { eContentType := oidData, eContent := none },
    certificates := [], crls := [], signerInfos := [] }

/-- The raw TLV stored by `addCertificate` for `certW`. -/
def rvCertW : RawValue :=
  { class_ := 0, tag := 16, isCompound := true, bytes := [5, 0], fullBytes := [48, 2, 5, 0] }

/-- The issuer-and-serial SID of `certW` (the value of
`NewIssuerAndSerialNumber certW`). -/
def sidW : RawValue :=
  { class_ := 0, tag := 16, isCompound := true, bytes := [48, 0, 2, 1, 5],
    fullBytes := [48, 5, 48, 0, 2, 1, 5] }

def siW : SignerInfo :=
  { version := 1, sid := sidW, digestAlgorithm := { algorithm := oidDigestAlgorithmSHA256 },
    signedAttrs := [], signatureAlgorithm := { algorithm := oidSignatureAlgorithmRSA },
    signature := [], unsignedAttrs := [] }

def isnW : IssuerAndSerialNumber :=
  { issuer := { class_ := 0, tag := 16, isCompound := true, bytes := [], fullBytes := [48, 0] },
    serialNumber := 5 }

/-- A signer info with the unregistered pair (ECDSA, MD5). -/
def siBadW : SignerInfo :=
  { siW with
    digestAlgorithm := ⟨oidDigestAlgorithmMD5⟩,
    signatureAlgorithm := ⟨oidSignatureAlgorithmECDSA⟩ }

/-- A signer info with a digest OID outside the registry. -/
def siBad2W : SignerInfo :=
  { siW with digestAlgorithm := ⟨[9, 9]⟩ }

def rvXW : RawValue :=
  { class_ := 0, tag := 4, isCompound := false, bytes := [1], fullBytes := [4, 1, 1] }

def attrsW : Attributes := [{ type := oidData, rawValue := (NewAnySet [rvXW]).encode }]

/-- The value of `marshalAttrList attrsW`. -/
def dersW : List (List Nat) :=
  [[48, 16, 6, 9, 42, 134, 72, 134, 247, 13, 1, 7, 1, 49, 3, 4, 1, 1]]

/-! Helper lemmas about the base 256 digits and the DER length codec. -/

theorem valBE_foldl (bs : List Nat) (a : Nat) :
    bs.foldl (fun x b => x * 256 + b % 256) a = a * 256 ^ bs.length + valBE bs := by
  induction bs generalizing a with
  | nil => simp [valBE]
  | cons b bs ih =>
    simp only [List.foldl_cons, List.length_cons, valBE]
    rw [ih (a * 256 + b % 256), ih (0 * 256 + b % 256)]
    ring

theorem valBE_cons (b : Nat) (bs : List Nat) :
    valBE (b :: bs) = (b % 256) * 256 ^ bs.length + valBE bs := by
  simp only [valBE, List.foldl_cons]
  simpa using valBE_foldl bs (b % 256)

theorem valBE_append_single (bs : List Nat) (b : Nat) :
    valBE (bs ++ [b]) = valBE bs * 256 + b % 256 := by
  simp [valBE, List.foldl_append]

theorem natBEAux_small (n : Nat) (h : n < 256) : ∀ fuel, natBEAux fuel n = [n] := by
  intro fuel
  cases fuel with
  | zero => simp [natBEAux, Nat.mod_eq_of_lt h]
  | succ f => simp [natBEAux, h]

theorem natBEAux_fuel (f1 : Nat) : ∀ f2 n, n ≤ f1 → n ≤ f2 →
    natBEAux f1 n = natBEAux f2 n := by
  induction f1 with
  | zero =>
    intro f2 n h1 _
    have hn : n = 0 := Nat.le_zero.mp h1
    subst hn
    rw [natBEAux_small 0 (by omega) 0, natBEAux_small 0 (by omega) f2]
  | succ f ih =>
    intro f2 n h1 h2
    by_cases hsm : n < 256
    · rw [natBEAux_small n hsm, natBEAux_small n hsm]
    · have h256 : 256 ≤ n := by omega
      cases f2 with
      | zero => omega
      | succ f2' =>
        show (if n < 256 then [n] else natBEAux f (n / 256) ++ [n % 256]) =
          (if n < 256 then [n] else natBEAux f2' (n / 256) ++ [n % 256])
        rw [if_neg hsm, if_neg hsm, ih f2' (n / 256) (by omega) (by omega)]

theorem natBE_small (n : Nat) (h : n < 256) : natBE n = [n] :=
  natBEAux_small n h n

theorem natBE_big (n : Nat) (h : 256 ≤ n) :
    natBE n = natBE (n / 256) ++ [n % 256] := by
  cases hn : n with
  | zero => omega
  | succ m =>
    show natBEAux (m + 1) (m + 1) = natBE ((m + 1) / 256) ++ [(m + 1) % 256]
    show (if m + 1 < 256 then [m + 1] else natBEAux m ((m + 1) / 256) ++ [(m + 1) % 256]) = _
    rw [if_neg (by omega)]
    rw [natBEAux_fuel m ((m + 1) / 256) ((m + 1) / 256) (by omega) (by omega)]
    rfl

theorem valBE_natBE (n : Nat) : valBE (natBE n) = n := by
  induction n using Nat.strong_induction_on with
  | _ n ih =>
    by_cases h : n < 256
    · rw [natBE_small n h]
      simp [valBE, Nat.mod_eq_of_lt h]
    · rw [natBE_big n (by omega), valBE_append_single, ih (n / 256) (by omega)]
      omega

theorem natBE_ne_nil (n : Nat) : natBE n ≠ [] := by
  by_cases h : n < 256
  · rw [natBE_small n h]; simp
  · rw [natBE_big n (by omega)]; simp

theorem natBE_mem_lt (n : Nat) : ∀ b ∈ natBE n, b < 256 := by
  induction n using Nat.strong_induction_on with
  | _ n ih =>
    by_cases h : n < 256
    · rw [natBE_small n h]
      intro b hb
      simp at hb
      omega
    · rw [natBE_big n (by omega)]
      intro b hb
      rcases List.mem_append.mp hb with hb' | hb'
      · exact ih (n / 256) (by omega) b hb'
      · simp at hb'
        omega

theorem natBE_head_pos (n : Nat) (h : 0 < n) :
    ∃ d ds, natBE n = d :: ds ∧ 0 < d := by
  induction n using Nat.strong_induction_on with
  | _ n ih =>
    by_cases hsm : n < 256
    · exact ⟨n, [], natBE_small n hsm, h⟩
    · obtain ⟨d, ds, hds, hd⟩ := ih (n / 256) (by omega) (by omega)
      exact ⟨d, ds ++ [n % 256], by rw [natBE_big n (by omega), hds]; rfl, hd⟩

theorem natBE_length_le : ∀ (k n : Nat), n < 256 ^ (k + 1) → (natBE n).length ≤ k + 1 := by
  intro k
  induction k with
  | zero =>
    intro n h
    rw [natBE_small n (by simpa using h)]
    simp
  | succ k ih =>
    intro n h
    by_cases hsm : n < 256
    · rw [natBE_small n hsm]; simp
    · rw [natBE_big n (by omega)]
      have hdiv : n / 256 < 256 ^ (k + 1) := by
        rw [Nat.div_lt_iff_lt_mul (by omega)]
        calc n < 256 ^ (k + 2) := h
        _ = 256 ^ (k + 1) * 256 := by ring
      have := ih (n / 256) hdiv
      simp only [List.length_append, List.length_cons, List.length_nil]
      omega

theorem parseLongLen_run : ∀ (ds : List Nat) (acc : Nat) (rest : List Nat),
    (∀ d ∈ ds, d < 256) → 0 < acc →
    acc * 256 ^ ds.length + valBE ds < 2147483648 →
    parseLongLen ds.length acc (ds ++ rest) =
      (if acc * 256 ^ ds.length + valBE ds < 128 then
        .error ("asn1: structure error: non-minimal length")
      else .ok (acc * 256 ^ ds.length + valBE ds, rest)) := by
  intro ds
  induction ds with
  | nil =>
    intro acc rest _ _ _
    simp [parseLongLen, valBE]
  | cons d ds ih =>
    intro acc rest hmem hpos hbound
    have hd : d < 256 := hmem d (by simp)
    have hvc : valBE (d :: ds) = (d % 256) * 256 ^ ds.length + valBE ds := valBE_cons d ds
    have hpow : 256 ≤ 256 ^ (ds.length + 1) := by
      calc (256 : Nat) = 256 ^ 1 := by ring
      _ ≤ 256 ^ (ds.length + 1) := Nat.pow_le_pow_right (by omega) (by omega)
    have hacc : acc < 8388608 := by
      have h1 : acc * 256 ≤ acc * 256 ^ (ds.length + 1) := Nat.mul_le_mul_left acc hpow
      have h2 : acc * 256 ^ (ds.length + 1) ≤ acc * 256 ^ (ds.length + 1) + valBE (d :: ds) :=
        Nat.le_add_right _ _
      simp only [List.length_cons] at hbound
      omega
    show parseLongLen (ds.length + 1) acc (d :: (ds ++ rest)) = _
    show (if 8388608 ≤ acc then Except.error ("asn1: structure error: length too large")
      else
        let acc' := acc * 256 + d % 256
        if acc' = 0 then
          Except.error ("asn1: structure error: superfluous leading zeros in length")
        else parseLongLen ds.length acc' (ds ++ rest)) = _
    rw [if_neg (by omega)]
    simp only
    rw [if_neg (by omega)]
    have heq : (acc * 256 + d % 256) * 256 ^ ds.length + valBE ds =
        acc * 256 ^ (ds.length + 1) + valBE (d :: ds) := by
      rw [hvc]
      ring
    rw [ih (acc * 256 + d % 256) rest (fun x hx => hmem x (by simp [hx])) (by omega)
      (by rw [heq]; simpa using hbound), heq]
    simp

theorem parseLen_encodeLen (n : Nat) (rest : List Nat) (h : n < 2147483648) :
    parseLen (encodeLen n ++ rest) = .ok (n, rest) := by
  by_cases hsm : n < 128
  · have : encodeLen n = [n] := by simp [encodeLen, hsm]
    rw [this]
    show parseLen (n :: rest) = _
    simp [parseLen, Nat.mod_eq_of_lt (by omega : n < 256), hsm]
  · have henc : encodeLen n = (128 + (natBE n).length) :: natBE n := by
      simp [encodeLen, hsm]
    have hk : (natBE n).length ≤ 4 := by
      apply natBE_length_le 3 n
      omega
    have hk1 : 1 ≤ (natBE n).length := by
      have := natBE_ne_nil n
      cases hnb : natBE n with
      | nil => exact absurd hnb this
      | cons a l => simp [hnb]
    obtain ⟨d, ds, hds, hdpos⟩ := natBE_head_pos n (by omega)
    rw [henc]
    show parseLen ((128 + (natBE n).length) :: (natBE n ++ rest)) = _
    have hb : (128 + (natBE n).length) % 256 = 128 + (natBE n).length :=
      Nat.mod_eq_of_lt (by omega)
    simp only [parseLen, hb]
    rw [if_neg (by omega)]
    have hnum : (128 + (natBE n).length) % 128 = (natBE n).length := by
      omega
    rw [hnum, if_neg (by omega)]
    rw [hds]
    show parseLongLen (d :: ds).length 0 (d :: (ds ++ rest)) = _
    show (if 8388608 ≤ 0 then Except.error ("asn1: structure error: length too large")
      else
        let acc' := 0 * 256 + d % 256
        if acc' = 0 then
          Except.error ("asn1: structure error: superfluous leading zeros in length")
        else parseLongLen ds.length acc' (ds ++ rest)) = _
    have hdlt : d < 256 := natBE_mem_lt n d (by rw [hds]; simp)
    have hdm : d % 256 = d := Nat.mod_eq_of_lt hdlt
    rw [if_neg (by omega)]
    simp only [hdm, Nat.zero_mul, Nat.zero_add]
    rw [if_neg (by omega)]
    have hval : d * 256 ^ ds.length + valBE ds = n := by
      have h1 : valBE (natBE n) = n := valBE_natBE n
      rw [hds, valBE_cons, hdm] at h1
      exact h1
    rw [parseLongLen_run ds d rest
      (fun x hx => natBE_mem_lt n x (by rw [hds]; simp [hx])) hdpos (by omega), hval,
      if_neg (by omega)]

theorem unmarshalRaw_encodeTLV (cls : Nat) (cmp : Bool) (tag : Nat) (content rest : List Nat)
    (hcls : cls < 4) (htag : tag < 31) (hlen : content.length < 2147483648) :
    unmarshalRaw (encodeTLV cls cmp tag content ++ rest) =
      .ok ({ class_ := cls, tag := tag, isCompound := cmp, bytes := content,
             fullBytes := encodeTLV cls cmp tag content }, rest) := by
  have htb : tagBytes cls cmp tag = [cls * 64 + (if cmp then 32 else 0) + tag] := by
    simp [tagBytes, htag]
  have hlt : cls * 64 + (if cmp then 32 else 0) + tag < 256 := by
    cases cmp <;> simp <;> omega
  have henc : encodeTLV cls cmp tag content ++ rest =
      (cls * 64 + (if cmp then 32 else 0) + tag) ::
        (encodeLen content.length ++ (content ++ rest)) := by
    simp [encodeTLV, htb]
  rw [henc]
  simp only [unmarshalRaw]
  rw [Nat.mod_eq_of_lt hlt]
  have hdiv64 : (cls * 64 + (if cmp then 32 else 0) + tag) / 64 = cls := by
    cases cmp <;> simp <;> omega
  have hmod32 : (cls * 64 + (if cmp then 32 else 0) + tag) % 32 = tag := by
    cases cmp <;> simp <;> omega
  have hcmp : decide ((cls * 64 + (if cmp then 32 else 0) + tag) / 32 % 2 = 1) = cmp := by
    cases cmp <;> simp <;> omega
  rw [hdiv64, hmod32, hcmp]
  rw [if_neg (by omega : ¬tag = 31)]
  simp only
  rw [parseLen_encodeLen content.length (content ++ rest) hlen]
  simp only
  rw [if_neg (by simp : ¬(content ++ rest).length < content.length)]
  have hdrop : (content ++ rest).drop content.length = rest := List.drop_left content rest
  have htake : (content ++ rest).take content.length = content := List.take_left content rest
  rw [hdrop, htake]
  have hconsumed :
      ((cls * 64 + (if cmp then 32 else 0) + tag) ::
        (encodeLen content.length ++ (content ++ rest))).length - rest.length =
      1 + (encodeLen content.length).length + content.length := by
    simp
    omega
  rw [hconsumed]
  have htakefull :
      ((cls * 64 + (if cmp then 32 else 0) + tag) ::
        (encodeLen content.length ++ (content ++ rest))).take
        (1 + (encodeLen content.length).length + content.length) =
      encodeTLV cls cmp tag content := by
    have h1 : 1 + (encodeLen content.length).length + content.length =
        ((encodeLen content.length) ++ content).length + 1 := by simp; omega
    rw [h1]
    show ((cls * 64 + (if cmp then 32 else 0) + tag) ::
        (encodeLen content.length ++ (content ++ rest))).take
        (((encodeLen content.length) ++ content).length + 1) = _
    rw [List.take_succ_cons]
    have h2 : encodeLen content.length ++ (content ++ rest) =
        (encodeLen content.length ++ content) ++ rest := by simp
    rw [h2, List.take_left]
    simp [encodeTLV, htb]
  rw [htakefull]

theorem econtentLoop_cons_step (fuel : Nat) (b : Nat) (tl acc : List Nat) :
    econtentLoop (fuel + 1) (b :: tl) acc =
      (match unmarshalRaw (b :: tl) with
      | .error e => .error e
      | .ok (octets, rest') =>
        if octets.class_ ≠ 0 ∨ octets.tag ≠ 4 ∨ octets.isCompound then
          .error ("bad data content (class: " ++ toString octets.class_ ++
            " tag: " ++ toString octets.tag ++ ")")
        else econtentLoop fuel rest' (acc ++ octets.bytes)) := rfl

theorem encodeTLV_octets_cons (s : List Nat) :
    encodeTLV 0 false 4 s = 4 :: (encodeLen s.length ++ s) := by
  simp [encodeTLV, tagBytes]

theorem econtentLoop_segments :
    ∀ (segs : List (List Nat)) (fuel : Nat) (acc rest : List Nat),
    (∀ s ∈ segs, s.length < 2147483648) → segs.length ≤ fuel →
    econtentLoop fuel ((segs.map (encodeTLV 0 false 4)).flatten ++ rest) acc =
      econtentLoop (fuel - segs.length) rest (acc ++ segs.flatten) := by
  intro segs
  induction segs with
  | nil => intro fuel acc rest _ _; simp
  | cons s ss ih =>
    intro fuel acc rest hmem hfuel
    cases fuel with
    | zero => simp at hfuel
    | succ f =>
      have hin : ((s :: ss).map (encodeTLV 0 false 4)).flatten ++ rest =
          4 :: ((encodeLen s.length ++ s) ++ ((ss.map (encodeTLV 0 false 4)).flatten ++ rest)) := by
        simp only [List.map_cons, List.flatten_cons, List.append_assoc]
        rw [encodeTLV_octets_cons]
        simp
      rw [hin, econtentLoop_cons_step]
      have hum : unmarshalRaw
          (4 :: ((encodeLen s.length ++ s) ++ ((ss.map (encodeTLV 0 false 4)).flatten ++ rest))) =
          .ok ({ class_ := 0, tag := 4, isCompound := false, bytes := s,
                 fullBytes := encodeTLV 0 false 4 s },
               (ss.map (encodeTLV 0 false 4)).flatten ++ rest) := by
        have h1 : 4 :: ((encodeLen s.length ++ s) ++ ((ss.map (encodeTLV 0 false 4)).flatten ++ rest)) =
            encodeTLV 0 false 4 s ++ ((ss.map (encodeTLV 0 false 4)).flatten ++ rest) := by
          rw [encodeTLV_octets_cons]
          simp
        rw [h1]
        exact unmarshalRaw_encodeTLV 0 false 4 s _ (by omega) (by omega)
          (hmem s (by simp))
      rw [hum]
      simp only
      rw [if_neg (by simp)]
      rw [ih f (acc ++ s) rest (fun x hx => hmem x (by simp [hx])) (by simp at hfuel; omega)]
      simp [Nat.succ_sub_succ]

theorem getValuesLoop_ok_length :
    ∀ (attrs : List Attribute) (oid : OID) (acc vs : List AnySet),
    getValuesLoop oid attrs acc = .ok vs →
    vs.length = acc.length + attrs.countP (fun a => decide (a.type = oid)) := by
  intro attrs
  induction attrs with
  | nil =>
    intro oid acc vs h
    simp only [getValuesLoop, Except.ok.injEq] at h
    subst h
    simp
  | cons a rest ih =>
    intro oid acc vs h
    simp only [getValuesLoop] at h
    by_cases ht : a.type = oid
    · rw [if_pos ht] at h
      cases hv : a.Value with
      | error e => rw [hv] at h; exact absurd h (by simp)
      | ok v =>
        rw [hv] at h
        have := ih oid (acc ++ [v]) vs h
        simp [List.countP_cons, ht] at this ⊢
        omega
    · rw [if_neg ht] at h
      have := ih oid acc vs h
      simp [List.countP_cons, ht]
      omega

theorem registerChain_state :
    ∀ (cs : List Certificate) (pub : List Nat) (sd : SignedData) (found : Option Certificate),
    (registerChain pub sd cs found).2.signerInfos = sd.signerInfos ∧
    (registerChain pub sd cs found).2.digestAlgorithms = sd.digestAlgorithms ∧
    (registerChain pub sd cs found).2.encapContentInfo = sd.encapContentInfo ∧
    ∃ suffix, (registerChain pub sd cs found).2.certificates = sd.certificates ++ suffix := by
  intro cs
  induction cs with
  | nil =>
    intro pub sd found
    refine ⟨rfl, rfl, rfl, [], ?_⟩
    simp [registerChain]
  | cons c cs ih =>
    intro pub sd found
    simp only [registerChain]
    by_cases hdup : sd.certificates.any (fun existing => existing.bytes == c.raw)
    · simp only [SignedData.addCertificate, if_pos hdup]
      refine ⟨?_, ?_, ?_, [], ?_⟩ <;> simp
    · simp only [SignedData.addCertificate, if_neg hdup]
      cases hum : unmarshalRaw c.raw with
      | error e =>
        refine ⟨?_, ?_, ?_, [], ?_⟩ <;> simp
      | ok pr =>
        obtain ⟨rv, rest⟩ := pr
        simp only
        obtain ⟨h1, h2, h3, suffix, h4⟩ :=
          ih pub { sd with certificates := sd.certificates ++ [rv] }
            (if pub = c.publicKey then some c else found)
        exact ⟨h1, h2, h3, [rv] ++ suffix, by rw [h4]; simp⟩

theorem addDigestAlgorithm_signerInfos (sd : SignedData) (a : AlgorithmIdentifier) :
    (sd.addDigestAlgorithm a).signerInfos = sd.signerInfos := by
  unfold SignedData.addDigestAlgorithm
  split <;> rfl

theorem addDigestAlgorithm_certificates (sd : SignedData) (a : AlgorithmIdentifier) :
    (sd.addDigestAlgorithm a).certificates = sd.certificates := by
  unfold SignedData.addDigestAlgorithm
  split <;> rfl

/-- Case analysis of one `AddSignerInfo` call: either it succeeds and appends
exactly one `SignerInfo` whose signature was produced over the digest of the
marshaled-for-signing signed attributes, or it fails and leaves the receiver
exactly as the certificate chain registration loop left it. -/
theorem addSignerInfo_cases (available : CryptoHash → Bool)
    (digest : CryptoHash → List Nat → List Nat) (sd : SignedData)
    (chain : List Certificate) (signer : Signer) :
    ((SignedData.AddSignerInfo available digest sd chain signer).1 = .ok () ∧
      ∃ si sm hash,
        (SignedData.AddSignerInfo available digest sd chain signer).2.signerInfos =
          (registerChain signer.pub sd chain none).2.signerInfos ++ [si] ∧
        SignerInfo.Hash available si = .ok hash ∧
        Attributes.MarshaledForSigning si.signedAttrs = .ok sm ∧
        signer.sign (digest hash sm) hash = .ok si.signature ∧
        (SignedData.AddSignerInfo available digest sd chain signer).2.digestAlgorithms =
          ((registerChain signer.pub sd chain none).2.addDigestAlgorithm
            si.digestAlgorithm).digestAlgorithms ∧
        (SignedData.AddSignerInfo available digest sd chain signer).2.certificates =
          (registerChain signer.pub sd chain none).2.certificates) ∨
    ((∃ e, (SignedData.AddSignerInfo available digest sd chain signer).1 = .error e) ∧
      (SignedData.AddSignerInfo available digest sd chain signer).2 =
        (registerChain signer.pub sd chain none).2) := by
  simp only [SignedData.AddSignerInfo]
  rcases hrc : registerChain signer.pub sd chain none with ⟨res, sd1⟩
  cases res with
  | error e1 => exact Or.inr ⟨⟨e1, rfl⟩, rfl⟩
  | ok oc =>
    cases oc with
    | none => exact Or.inr ⟨⟨_, rfl⟩, rfl⟩
    | some cert =>
      simp only
      cases hisn : NewIssuerAndSerialNumber cert with
      | error e1 => exact Or.inr ⟨⟨e1, rfl⟩, rfl⟩
      | ok sid =>
        cases hda : signatureAlgorithmToDigestAlgorithm cert.signatureAlgorithm with
        | none => exact Or.inr ⟨⟨_, rfl⟩, rfl⟩
        | some digOID =>
          cases hsa : signatureAlgorithmToSignatureAlgorithm cert.signatureAlgorithm with
          | none => exact Or.inr ⟨⟨_, rfl⟩, rfl⟩
          | some sigOID =>
            simp only
            cases hec : sd1.encapContentInfo.EContentValue with
            | error e1 => exact Or.inr ⟨⟨e1, rfl⟩, rfl⟩
            | ok oc2 =>
              cases oc2 with
              | none => exact Or.inr ⟨⟨_, rfl⟩, rfl⟩
              | some content =>
                simp only
                cases hh : SignerInfo.Hash available
                    { version := 1, sid := sid,
                      digestAlgorithm := { algorithm := digOID },
                      signedAttrs := [],
                      signatureAlgorithm := { algorithm := sigOID },
                      signature := [], unsignedAttrs := [] } with
                | error e1 => exact Or.inr ⟨⟨e1, rfl⟩, rfl⟩
                | ok hash =>
                  simp only
                  cases hmd : NewAttribute oidAttributeMessageDigest
                      (.bytes (digest hash content)) with
                  | error e1 => exact Or.inr ⟨⟨e1, rfl⟩, rfl⟩
                  | ok mdAttr =>
                    cases hct : NewAttribute oidAttributeContentType (.oid oidData) with
                    | error e1 => exact Or.inr ⟨⟨e1, rfl⟩, rfl⟩
                    | ok ctAttr =>
                      simp only
                      cases hsm : Attributes.MarshaledForSigning ([] ++ [mdAttr, ctAttr]) with
                      | error e1 => exact Or.inr ⟨⟨e1, rfl⟩, rfl⟩
                      | ok sm =>
                        simp only
                        cases hsg : signer.sign (digest hash sm) hash with
                        | error e1 => exact Or.inr ⟨⟨e1, rfl⟩, rfl⟩
                        | ok sig =>
                          refine Or.inl ⟨rfl, ?_⟩
                          refine ⟨⟨1, sid, ⟨digOID⟩, [] ++ [mdAttr, ctAttr], ⟨sigOID⟩, sig, []⟩,
                            sm, hash, ?_, ?_, ?_, ?_, ?_, ?_⟩
                          · simp [addDigestAlgorithm_signerInfos]
                          · exact hh
                          · exact hsm
                          · exact hsg
                          · simp
                          · simp [addDigestAlgorithm_certificates]


/-! Claim theorems.  Each claim of the specification gets one theorem (with
witnesses for the hypothesised ones and counterexamples where the claim
fails on the code). -/

/-- C3: for every encapsulated content info, `NewSignedData` returns without
error a `SignedData` whose version is 1 when the content type is id-data and
3 otherwise. -/
theorem C3_newSignedData_version (eci : EncapsulatedContentInfo) :
    ∃ sd, NewSignedData eci = .ok sd ∧
      sd.version = (if eci.eContentType = oidData then 1 else 3) ∧
      sd.encapContentInfo = eci := by
  refine ⟨_, rfl, ?_, rfl⟩
  simp only [NewSignedData, EncapsulatedContentInfo.IsTypeData]
  by_cases h : eci.eContentType = oidData <;> simp [h]

/-- C10: for every signer info, whatever its version, `FindCertificate` with
an empty candidate list fails with the "no certificates" error before any
version dispatch. -/
theorem C10_findCertificate_empty (si : SignerInfo) :
    SignerInfo.FindCertificate si [] = .error ("no certificates") := rfl

/-- C1, failing input: a chain holding the same well-formed certificate
twice.  `AddSignerInfo` succeeds and the certificate is stored twice in the
certificate set — the duplicate check of `addCertificate` compares the
content octets of the stored value with the full raw octets of the
candidate, which never match for well-formed DER, so the deduplication that
the specification describes never happens. -/
theorem C1_duplicate_certificate_not_deduplicated :
    (SignedData.AddSignerInfo availW digestW sdDataW [certW, certW] signerW).1 = .ok () ∧
    (SignedData.AddSignerInfo availW digestW sdDataW [certW, certW] signerW).2.certificates =
      [rvCertW, rvCertW] := by
  constructor
  · decide
  · decide

/-- C2, failing input: content of type id-ct-TSTInfo.  `AddSignerInfo`
succeeds, but the content-type signed attribute attached to the new signer
info carries the constant id-data OID instead of the encapsulated content
type, because the source passes the literal `oidData` to `NewAttribute`. -/
theorem C2_contentType_attribute_is_constant :
    sdTSTW.encapContentInfo.eContentType = oidTSTInfo ∧
    (SignedData.AddSignerInfo availW digestW sdTSTW [certW] signerW).1 = .ok () ∧
    (SignedData.AddSignerInfo availW digestW sdTSTW [certW] signerW).2.signerInfos.map
      SignerInfo.GetContentTypeAttribute = [.ok oidData] ∧
    oidData ≠ oidTSTInfo := by
  refine ⟨rfl, by decide, by decide, by decide⟩

/-- C4, counterexample: a version-2 signer info resolved against the empty
candidate list yields the "no certificates" error, not the
"unknown SignerInfo version" error that the claim requires for every
candidate list. -/
theorem C4_counterexample_empty_list :
    SignerInfo.FindCertificate { siW with version := 2 } [] = .error ("no certificates") ∧
    ("no certificates" : String) ≠ "unknown SignerInfo version" := by
  constructor
  · rfl
  · decide

/-- C8, counterexample: the pair (ECDSA signature OID, MD5 digest OID) is
not in the registry, yet `X509SignatureAlgorithm` does not report an error —
it has no error channel and returns the zero sentinel
`UnknownSignatureAlgorithm`. -/
theorem C8_counterexample_sentinel :
    signatureAlgorithms oidSignatureAlgorithmECDSA oidDigestAlgorithmMD5 = none ∧
    SignerInfo.X509SignatureAlgorithm siBadW = .unknownSignatureAlgorithm := by
  constructor
  · decide
  · decide

/-- C4 (amended): for a non-empty candidate list, `FindCertificate`
dispatches on the version: with version 1 and a SID that parses as
issuer-and-serial it returns the first candidate matching on raw issuer
octets and serial number, or the "no matching certificate" error; with
version 3 and a SID that parses as a key identifier it returns the first
candidate with an equal subject-key-identifier extension value, or the
"no matching certificate" error; any other version is the
"unknown SignerInfo version" error.  (The empty list always yields
"no certificates" instead, see the counterexample.) -/
theorem C4_findCertificate_dispatch (si : SignerInfo) (certs : List Certificate)
    (hne : certs ≠ []) :
    (si.version = 1 → ∀ isn, si.issuerAndSerialNumberSID = .ok isn →
      si.FindCertificate certs =
        (match certs.find? (fun cert =>
            cert.rawIssuer == isn.issuer.fullBytes &&
              isn.serialNumber == cert.serialNumber) with
        | some cert => .ok cert
        | none => .error ("no matching certificate"))) ∧
    (si.version = 3 → ∀ ski, si.subjectKeyIdentifierSID = .ok ski →
      si.FindCertificate certs =
        (match certs.find? (fun cert => cert.extensions.any (fun ext =>
            oidSubjectKeyIdentifier == ext.id && ski == ext.value)) with
        | some cert => .ok cert
        | none => .error ("no matching certificate"))) ∧
    (si.version ≠ 1 → si.version ≠ 3 →
      si.FindCertificate certs = .error ("unknown SignerInfo version")) := by
  have hlen : ¬certs.length = 0 := by
    cases certs with
    | nil => exact absurd rfl hne
    | cons c cs => simp
  refine ⟨?_, ?_, ?_⟩
  · intro h1 isn hisn
    simp only [SignerInfo.FindCertificate]
    rw [if_neg hlen, if_pos h1, hisn]
  · intro h3 ski hski
    simp only [SignerInfo.FindCertificate]
    rw [if_neg hlen, if_neg (by omega : ¬si.version = 1), if_pos h3, hski]
  · intro h1 h3
    simp only [SignerInfo.FindCertificate]
    rw [if_neg hlen, if_neg h1, if_neg h3]

/-- C4 witness: a concrete version-1 signer info, resolved against two
candidates sharing the issuer; the first candidate has another serial and is
skipped, the second is returned. -/
theorem C4_findCertificate_dispatch_witness :
    ([certXW, certW] : List Certificate) ≠ [] ∧
    siW.version = 1 ∧
    siW.issuerAndSerialNumberSID = .ok isnW ∧
    siW.FindCertificate [certXW, certW] = .ok certW := by
  have h := C4_findCertificate_dispatch siW [certXW, certW] (by decide)
  have h1 := h.1 (by decide) isnW (by decide)
  refine ⟨by decide, by decide, by decide, ?_⟩
  rw [h1]
  decide

/-- C8 (amended): for a digest OID outside the five registered digests,
`SignerInfo.Hash` fails with an error whatever the hash availability; and —
independently, for every signer info — for a (signature OID, digest OID)
pair absent from the two-level registry, `X509SignatureAlgorithm`, which has
no error return, yields the zero sentinel `UnknownSignatureAlgorithm`
rather than a registered algorithm. -/
theorem C8_unsupported_algorithm (available : CryptoHash → Bool) (si : SignerInfo) :
    (si.digestAlgorithm.algorithm ∉
        [oidDigestAlgorithmSHA1, oidDigestAlgorithmMD5, oidDigestAlgorithmSHA256,
         oidDigestAlgorithmSHA384, oidDigestAlgorithmSHA512] →
      ∃ msg, SignerInfo.Hash available si = .error msg) ∧
    (signatureAlgorithms si.signatureAlgorithm.algorithm
        si.digestAlgorithm.algorithm = none →
      SignerInfo.X509SignatureAlgorithm si = .unknownSignatureAlgorithm) := by
  constructor
  · intro hdig
    simp only [List.mem_cons, List.mem_singleton, not_or] at hdig
    obtain ⟨h1, h2, h3, h4, h5, -⟩ := hdig
    refine ⟨"unknown digest algorithm: " ++ oidDotString si.digestAlgorithm.algorithm, ?_⟩
    simp [SignerInfo.Hash, digestAlgorithmToHash, h1, h2, h3, h4, h5]
  · intro h
    simp [SignerInfo.X509SignatureAlgorithm, h]

/-- C8 witness: the Hash clause at a digest OID outside the registry with
the RSA signature OID (a pair also absent from the registry), and the
sentinel clause additionally at the (ECDSA, MD5) pair, whose digest is one
of the five registered digests but whose pair is absent from the
registry. -/
theorem C8_unsupported_algorithm_witness :
    (∃ msg, SignerInfo.Hash availW siBad2W = .error msg) ∧
    SignerInfo.X509SignatureAlgorithm siBad2W = .unknownSignatureAlgorithm ∧
    SignerInfo.X509SignatureAlgorithm siBadW = .unknownSignatureAlgorithm := by
  have h1 := C8_unsupported_algorithm availW siBad2W
  have h2 := C8_unsupported_algorithm availW siBadW
  exact ⟨h1.1 (by decide), h1.2 (by decide), h2.2 (by decide)⟩

/-- C9: whenever `AddSignerInfo` fails, the receiver keeps exactly the
certificates that the chain registration loop had already stored (an
extension of the original certificate list), while no signer info is
appended and the digest algorithm set is unchanged. -/
theorem C9_addSignerInfo_partial_mutation (available : CryptoHash → Bool)
    (digest : CryptoHash → List Nat → List Nat) (sd : SignedData)
    (chain : List Certificate) (signer : Signer) (e : String)
    (h : (SignedData.AddSignerInfo available digest sd chain signer).1 = .error e) :
    (SignedData.AddSignerInfo available digest sd chain signer).2.certificates =
      (registerChain signer.pub sd chain none).2.certificates ∧
    (∃ suffix, (SignedData.AddSignerInfo available digest sd chain signer).2.certificates =
      sd.certificates ++ suffix) ∧
    (SignedData.AddSignerInfo available digest sd chain signer).2.signerInfos =
      sd.signerInfos ∧
    (SignedData.AddSignerInfo available digest sd chain signer).2.digestAlgorithms =
      sd.digestAlgorithms := by
  rcases addSignerInfo_cases available digest sd chain signer with
    ⟨hok, _⟩ | ⟨⟨e1, herr⟩, hstate⟩
  · rw [hok] at h
    exact absurd h (by simp)
  · obtain ⟨h1, h2, _, suffix, h4⟩ := registerChain_state chain signer.pub sd none
    rw [hstate]
    exact ⟨rfl, ⟨suffix, h4⟩, h1, h2⟩

/-- C9 witness: adding a signer over detached content fails with
"already detached" after the chain certificate was registered; the
certificate stays, nothing else is mutated. -/
theorem C9_addSignerInfo_partial_mutation_witness :
    (SignedData.AddSignerInfo availW digestW sdDetachedW [certW] signerW).1 =
      .error ("already detached") ∧
    (∃ suffix,
      (SignedData.AddSignerInfo availW digestW sdDetachedW [certW] signerW).2.certificates =
        sdDetachedW.certificates ++ suffix) ∧
    (SignedData.AddSignerInfo availW digestW sdDetachedW [certW] signerW).2.certificates =
      [rvCertW] ∧
    (SignedData.AddSignerInfo availW digestW sdDetachedW [certW] signerW).2.signerInfos =
      sdDetachedW.signerInfos ∧
    (SignedData.AddSignerInfo availW digestW sdDetachedW [certW] signerW).2.digestAlgorithms =
      sdDetachedW.digestAlgorithms := by
  have h := C9_addSignerInfo_partial_mutation availW digestW sdDetachedW [certW] signerW
    ("already detached") (by decide)
  exact ⟨by decide, h.2.1, by decide, h.2.2.1, h.2.2.2⟩

/-- C5: whenever decoding the attribute values for an OID succeeds,
`GetOnlyAttributeValueBytes` returns the single value exactly when exactly
one attribute in the list carries the OID (the decoded value list counts the
matching attributes) and that attribute carries exactly one value; any other
cardinality — zero or several matching attributes, zero or several values —
is an error. -/
theorem C5_getOnlyAttributeValueBytes (attrs : Attributes) (oid : OID) (vs : List AnySet)
    (hv : Attributes.GetValues attrs oid = .ok vs) :
    (vs.length = attrs.countP (fun a => decide (a.type = oid))) ∧
    (∀ s e, vs = [s] → s.elements = [e] →
      Attributes.GetOnlyAttributeValueBytes attrs oid = .ok e) ∧
    (vs.length ≠ 1 →
      ∃ msg, Attributes.GetOnlyAttributeValueBytes attrs oid = .error msg) ∧
    (∀ s, vs = [s] → s.elements.length ≠ 1 →
      ∃ msg, Attributes.GetOnlyAttributeValueBytes attrs oid = .error msg) := by
  refine ⟨?_, ?_, ?_, ?_⟩
  · have := getValuesLoop_ok_length attrs oid [] vs hv
    simpa using this
  · intro s e hs he
    subst hs
    simp only [Attributes.GetOnlyAttributeValueBytes, hv, he]
  · intro hlen
    simp only [Attributes.GetOnlyAttributeValueBytes, hv]
    cases vs with
    | nil => exact ⟨_, rfl⟩
    | cons v tail =>
      cases tail with
      | nil => simp at hlen
      | cons v2 tail2 => exact ⟨_, rfl⟩
  · intro s hs hne
    subst hs
    simp only [Attributes.GetOnlyAttributeValueBytes, hv]
    cases hel : s.elements with
    | nil => exact ⟨_, rfl⟩
    | cons e tail =>
      cases tail with
      | nil => rw [hel] at hne; simp at hne
      | cons e2 tail2 => exact ⟨_, rfl⟩

/-- C5 witness: one attribute with the OID, carrying one value. -/
theorem C5_getOnlyAttributeValueBytes_witness :
    Attributes.GetValues attrsW oidData = .ok [⟨[rvXW]⟩] ∧
    Attributes.GetOnlyAttributeValueBytes attrsW oidData = .ok rvXW := by
  have h := C5_getOnlyAttributeValueBytes attrsW oidData [⟨[rvXW]⟩] (by decide)
  exact ⟨by decide, h.2.1 ⟨[rvXW]⟩ rvXW rfl rfl⟩

/-- The encodings of a list of attributes have at least one octet each. -/
theorem flatten_encTLV_length_ge (segs : List (List Nat)) :
    segs.length ≤ ((segs.map (encodeTLV 0 false 4)).flatten).length := by
  induction segs with
  | nil => simp
  | cons s ss ih =>
    simp only [List.map_cons, List.flatten_cons, List.length_append, List.length_cons]
    rw [encodeTLV_octets_cons]
    simp only [List.length_cons]
    omega

/-- C7: when the attributes marshal, `MarshaledForSigning` returns the full
TLV of a universal constructed SET OF holding the marshaled attributes in
order (the explicit SET tag, not the implicit context tag 0 of the wire
encoding); and every successful `AddSignerInfo` call signs the digest of
exactly that byte sequence of the new signer signed attributes. -/
theorem C7_marshaledForSigning (attrs : Attributes) (ders : List (List Nat))
    (hm : marshalAttrList attrs = .ok ders)
    (hlen : (encodeTLV 0 true 17 ders.flatten).length < 2147483648)
    (available : CryptoHash → Bool) (digest : CryptoHash → List Nat → List Nat)
    (sd : SignedData) (chain : List Certificate) (signer : Signer) :
    (Attributes.MarshaledForSigning attrs = .ok (encodeTLV 0 true 17 ders.flatten)) ∧
    ((SignedData.AddSignerInfo available digest sd chain signer).1 = .ok () →
      ∃ si sm hash,
        (SignedData.AddSignerInfo available digest sd chain signer).2.signerInfos.getLast? =
          some si ∧
        SignerInfo.Hash available si = .ok hash ∧
        Attributes.MarshaledForSigning si.signedAttrs = .ok sm ∧
        signer.sign (digest hash sm) hash = .ok si.signature) := by
  constructor
  · simp only [Attributes.MarshaledForSigning, hm]
    have h := unmarshalRaw_encodeTLV 0 true 16 (encodeTLV 0 true 17 ders.flatten) []
      (by omega) (by omega) hlen
    rw [show encodeTLV 0 true 16 (encodeTLV 0 true 17 ders.flatten) =
      encodeTLV 0 true 16 (encodeTLV 0 true 17 ders.flatten) ++ [] by simp, h]
  · intro hok
    rcases addSignerInfo_cases available digest sd chain signer with
      ⟨_, si, sm, hash, hsis, hhash, hsm, hsig, _, _⟩ | ⟨⟨e1, herr⟩, _⟩
    · refine ⟨si, sm, hash, ?_, hhash, hsm, hsig⟩
      rw [hsis]
      exact List.getLast?_concat _
    · rw [herr] at hok
      exact absurd hok (by simp)

/-- C7 witness: the one-attribute fixture marshals to a SET-tagged TLV, and
a concrete successful `AddSignerInfo` run signs the digest of the
marshaled-for-signing bytes of its new signer attributes. -/
theorem C7_marshaledForSigning_witness :
    Attributes.MarshaledForSigning attrsW = .ok (encodeTLV 0 true 17 dersW.flatten) ∧
    (∃ si sm hash,
      (SignedData.AddSignerInfo availW digestW sdDataW [certW] signerW).2.signerInfos.getLast? =
        some si ∧
      SignerInfo.Hash availW si = .ok hash ∧
      Attributes.MarshaledForSigning si.signedAttrs = .ok sm ∧
      signerW.sign (digestW hash sm) hash = .ok si.signature) := by
  have h := C7_marshaledForSigning attrsW dersW (by decide) (by decide)
    availW digestW sdDataW [certW] signerW
  exact ⟨h.1, h.2 (by decide)⟩


/-- The loop of `EContentValue` accepts an exhausted input whatever the
remaining fuel. -/
theorem econtentLoop_nil (fuel : Nat) (value : List Nat) :
    econtentLoop fuel [] value = .ok value := by
  cases fuel <;> rfl

/-- Reduction of `EContentValue` on a present field that parses as one
OCTET STRING TLV with nothing trailing. -/
theorem econtentValue_some_eq (ty : OID) (L body F : List Nat) (cmp : Bool)
    (h : unmarshalRaw L =
      .ok ({ class_ := 0, tag := 4, isCompound := cmp, bytes := body, fullBytes := F },
        [])) :
    EncapsulatedContentInfo.EContentValue ⟨ty, some L⟩ =
      (if cmp then
        (match econtentLoop body.length body [] with
        | .error e => .error e
        | .ok value => .ok (if value.isEmpty then none else some value))
      else .ok (some body)) := by
  simp only [EncapsulatedContentInfo.EContentValue, h]
  cases cmp with
  | false => simp
  | true => simp

/-- C6: `EContentValue` returns the Go nil slice without error for a
detached content; returns the content octets verbatim for a present
primitive OCTET STRING; returns the in-order concatenation of the segment
contents for a constructed OCTET STRING of primitive segments (the Go nil
slice when that concatenation is empty); and rejects a further constructed
segment (one level of nesting only) as well as a segment that is not an
OCTET STRING, even after any number of good segments. -/
theorem C6_econtentValue (ty : OID) (b x y suffix : List Nat) (segs : List (List Nat))
    (hb : b.length < 2147483648)
    (hx : x.length < 2147483648)
    (hy : y.length < 2147483648)
    (hsegs : ∀ s ∈ segs, s.length < 2147483648)
    (hJ : ((segs.map (encodeTLV 0 false 4)).flatten).length < 2147483648)
    (hbody4 : ((segs.map (encodeTLV 0 false 4)).flatten ++
      (encodeTLV 0 true 4 x ++ suffix)).length < 2147483648)
    (hbody5 : ((segs.map (encodeTLV 0 false 4)).flatten ++
      (encodeTLV 0 false 16 y ++ suffix)).length < 2147483648) :
    (EncapsulatedContentInfo.EContentValue ⟨ty, none⟩ = .ok none) ∧
    (EncapsulatedContentInfo.EContentValue ⟨ty, some (encodeTLV 0 false 4 b)⟩ =
      .ok (some b)) ∧
    (EncapsulatedContentInfo.EContentValue
        ⟨ty, some (encodeTLV 0 true 4 ((segs.map (encodeTLV 0 false 4)).flatten))⟩ =
      .ok (if segs.flatten.isEmpty then none else some segs.flatten)) ∧
    (EncapsulatedContentInfo.EContentValue
        ⟨ty, some (encodeTLV 0 true 4 ((segs.map (encodeTLV 0 false 4)).flatten ++
          (encodeTLV 0 true 4 x ++ suffix)))⟩ =
      .error ("bad data content (class: 0 tag: 4)")) ∧
    (EncapsulatedContentInfo.EContentValue
        ⟨ty, some (encodeTLV 0 true 4 ((segs.map (encodeTLV 0 false 4)).flatten ++
          (encodeTLV 0 false 16 y ++ suffix)))⟩ =
      .error ("bad data content (class: 0 tag: 16)")) := by
  refine ⟨rfl, ?_, ?_, ?_, ?_⟩
  · have hum := unmarshalRaw_encodeTLV 0 false 4 b [] (by omega) (by omega) hb
    rw [List.append_nil] at hum
    rw [econtentValue_some_eq ty _ b _ false hum]
    simp
  · have hum := unmarshalRaw_encodeTLV 0 true 4
      ((segs.map (encodeTLV 0 false 4)).flatten) [] (by omega) (by omega) hJ
    rw [List.append_nil] at hum
    rw [econtentValue_some_eq ty _ _ _ true hum]
    have hrun := econtentLoop_segments segs
      ((segs.map (encodeTLV 0 false 4)).flatten).length [] []
      hsegs (flatten_encTLV_length_ge segs)
    rw [List.append_nil] at hrun
    rw [if_pos rfl, hrun, econtentLoop_nil]
    simp
  · have hum := unmarshalRaw_encodeTLV 0 true 4
      ((segs.map (encodeTLV 0 false 4)).flatten ++ (encodeTLV 0 true 4 x ++ suffix)) []
      (by omega) (by omega) hbody4
    rw [List.append_nil] at hum
    rw [econtentValue_some_eq ty _ _ _ true hum]
    have hfuel : segs.length ≤ ((segs.map (encodeTLV 0 false 4)).flatten ++
        (encodeTLV 0 true 4 x ++ suffix)).length := by
      have := flatten_encTLV_length_ge segs
      simp only [List.length_append]
      omega
    have hrun := econtentLoop_segments segs _ [] (encodeTLV 0 true 4 x ++ suffix)
      hsegs hfuel
    obtain ⟨f, hf⟩ : ∃ f, ((segs.map (encodeTLV 0 false 4)).flatten ++
        (encodeTLV 0 true 4 x ++ suffix)).length - segs.length = f + 1 := by
      have h1 := flatten_encTLV_length_ge segs
      have h2 : 1 ≤ (encodeTLV 0 true 4 x).length := by
        rw [show encodeTLV 0 true 4 x = 36 :: (encodeLen x.length ++ x) from by
          simp [encodeTLV, tagBytes]]
        simp
      simp only [List.length_append]
      exact ⟨((segs.map (encodeTLV 0 false 4)).flatten).length +
        ((encodeTLV 0 true 4 x).length + suffix.length) - segs.length - 1, by omega⟩
    rw [hf] at hrun
    have hstep : econtentLoop (f + 1) (encodeTLV 0 true 4 x ++ suffix)
        ([] ++ segs.flatten) = .error ("bad data content (class: 0 tag: 4)") := by
      rw [show encodeTLV 0 true 4 x ++ suffix =
        36 :: ((encodeLen x.length ++ x) ++ suffix) from by simp [encodeTLV, tagBytes]]
      rw [econtentLoop_cons_step]
      rw [show (36 : Nat) :: ((encodeLen x.length ++ x) ++ suffix) =
        encodeTLV 0 true 4 x ++ suffix from by simp [encodeTLV, tagBytes]]
      rw [unmarshalRaw_encodeTLV 0 true 4 x suffix (by omega) (by omega) hx]
      simp only []
      rw [if_pos (by simp)]
      rfl
    rw [hstep] at hrun
    rw [if_pos rfl, hrun]
  · have hum := unmarshalRaw_encodeTLV 0 true 4
      ((segs.map (encodeTLV 0 false 4)).flatten ++ (encodeTLV 0 false 16 y ++ suffix)) []
      (by omega) (by omega) hbody5
    rw [List.append_nil] at hum
    rw [econtentValue_some_eq ty _ _ _ true hum]
    have hfuel : segs.length ≤ ((segs.map (encodeTLV 0 false 4)).flatten ++
        (encodeTLV 0 false 16 y ++ suffix)).length := by
      have := flatten_encTLV_length_ge segs
      simp only [List.length_append]
      omega
    have hrun := econtentLoop_segments segs _ [] (encodeTLV 0 false 16 y ++ suffix)
      hsegs hfuel
    obtain ⟨f, hf⟩ : ∃ f, ((segs.map (encodeTLV 0 false 4)).flatten ++
        (encodeTLV 0 false 16 y ++ suffix)).length - segs.length = f + 1 := by
      have h1 := flatten_encTLV_length_ge segs
      have h2 : 1 ≤ (encodeTLV 0 false 16 y).length := by
        rw [show encodeTLV 0 false 16 y = 16 :: (encodeLen y.length ++ y) from by
          simp [encodeTLV, tagBytes]]
        simp
      simp only [List.length_append]
      exact ⟨((segs.map (encodeTLV 0 false 4)).flatten).length +
        ((encodeTLV 0 false 16 y).length + suffix.length) - segs.length - 1, by omega⟩
    rw [hf] at hrun
    have hstep : econtentLoop (f + 1) (encodeTLV 0 false 16 y ++ suffix)
        ([] ++ segs.flatten) = .error ("bad data content (class: 0 tag: 16)") := by
      rw [show encodeTLV 0 false 16 y ++ suffix =
        16 :: ((encodeLen y.length ++ y) ++ suffix) from by simp [encodeTLV, tagBytes]]
      rw [econtentLoop_cons_step]
      rw [show (16 : Nat) :: ((encodeLen y.length ++ y) ++ suffix) =
        encodeTLV 0 false 16 y ++ suffix from by simp [encodeTLV, tagBytes]]
      rw [unmarshalRaw_encodeTLV 0 false 16 y suffix (by omega) (by omega) hy]
      simp only []
      rw [if_pos (by simp)]
      rfl
    rw [hstep] at hrun
    rw [if_pos rfl, hrun]

/-- C6 witness: concrete attached contents — a primitive OCTET STRING with
two content octets, a constructed OCTET STRING with segments `[1]` and
`[2, 3]` reassembling to `[1, 2, 3]`, and a constructed OCTET STRING whose
first child is itself constructed, which is rejected. -/
theorem C6_econtentValue_witness :
    (EncapsulatedContentInfo.EContentValue
        ⟨oidData, some (encodeTLV 0 false 4 [1, 2])⟩ = .ok (some [1, 2])) ∧
    (EncapsulatedContentInfo.EContentValue
        ⟨oidData, some (encodeTLV 0 true 4
          (([[1], [2, 3]].map (encodeTLV 0 false 4)).flatten))⟩ =
      .ok (some [1, 2, 3])) ∧
    (EncapsulatedContentInfo.EContentValue
        ⟨oidData, some (encodeTLV 0 true 4
          (([[1], [2, 3]].map (encodeTLV 0 false 4)).flatten ++
            (encodeTLV 0 true 4 [7] ++ [])))⟩ =
      .error ("bad data content (class: 0 tag: 4)")) := by
  have h := C6_econtentValue oidData [1, 2] [7] [8] [] [[1], [2, 3]]
    (by decide) (by decide) (by decide) (by decide) (by decide) (by decide) (by decide)
  refine ⟨h.2.1, ?_, h.2.2.2.1⟩
  have h3 := h.2.2.1
  simpa using h3
